import Mathlib

/-!
Shallow embedding of the coordinate/axis core of the coords-array library:
the `Index` variants (`ScaledIndex`, `CategoricalIndex`), `Axis`/`UndefAxis`
equality and hashing, `Coordinates` construction and `drop`, the broadcast
algorithm `_broadcast_two`, and the key-to-coordinates algorithm `slice_axes`.
Numbers that are Python floats are modelled as rationals; fallible code
returns `Except PyErr`.
-/

deriving instance DecidableEq for Except

/-- Kinds of Python exceptions raised by the modelled code paths. -/
inductive PyErr where
  | typeError
  | valueError
  | indexError
  | keyError
  | coordinateError
  | stopIteration
deriving DecidableEq, Repr

/-- Python `int(x)` on a real value: truncation toward zero. -/
def ratTrunc (q : ℚ) : ℤ :=
  if 0 ≤ q then ⌊q⌋ else ⌈q⌉

/-- Model of `numpy.round` / Python `round`: round half to even. -/
def roundHalfEven (q : ℚ) : ℤ :=
  let f := ⌊q⌋
  let r := q - (f : ℚ)
  if r < 1/2 then f
  else if (1/2 : ℚ) < r then f + 1
  else if f % 2 = 0 then f else f + 1

/-- A Python `slice` object over integer positions (`start`, `stop`, `step`,
each possibly `None`). -/
structure PySlice where
  start : Option ℤ
  stop : Option ℤ
  step : Option ℤ
deriving DecidableEq, Repr

/-- CPython `slice.indices(length)`: normalize a slice against a length,
producing clamped `(start, stop, step)`.  Raises `ValueError` on step 0. -/
def sliceIndices (s : PySlice) (length : ℕ) : Except PyErr (ℤ × ℤ × ℤ) :=
  let step := s.step.getD 1
  if step = 0 then .error .valueError else
  let L : ℤ := length
  let lower : ℤ := if step > 0 then 0 else -1
  let upper : ℤ := if step > 0 then L else L - 1
  let start :=
    match s.start with
    | none => if step > 0 then lower else upper
    | some v => if v < 0 then max (v + L) lower else min v upper
  let stop :=
    match s.stop with
    | none => if step > 0 then upper else lower
    | some v => if v < 0 then max (v + L) lower else min v upper
  .ok (start, stop, step)

/-- Model of `ScaledIndex`: a decimal arithmetic progression `start, start+step, ...`
of a given size, with an optional unit.  (`_index.py`, class `ScaledIndex`.) -/
structure ScaledIndexObj where
  start : ℚ
  step : ℚ
  size : ℕ
  unit : Option String
deriving DecidableEq, Repr

namespace ScaledIndexObj

/-- The `_stop` property: `start + step * size`. -/
def stopCoord (si : ScaledIndexObj) : ℚ :=
  si.start + si.step * si.size

/-- Model of `ScaledIndex.__getitem__` on a non-slice (integer) key. -/
def getitem_int (si : ScaledIndexObj) (key : ℤ) : Except PyErr ℚ :=
  if si.step > 0 then
    let val := si.start + key * si.step
    if si.stopCoord ≤ val then .error .indexError else .ok val
  else
    let val := si.stopCoord + key * si.step
    if val ≤ si.start then .error .indexError else .ok val

/-- Model of `ScaledIndex.__getitem__` on a slice key: normalize via `slice.indices`,
take the coordinate of `start` (positive step) or `stop - 1` (otherwise) as
the new start, multiply steps, and set `size = max((stop - start) // step, 0)`. -/
def getitem_slice (si : ScaledIndexObj) (key : PySlice) : Except PyErr ScaledIndexObj := do
  let (start, stop, step) ← sliceIndices key si.size
  let mStart ← if step > 0 then si.getitem_int start else si.getitem_int (stop - 1)
  .ok ⟨mStart, step * si.step, (max ((stop - start).fdiv step) 0).toNat, si.unit⟩

end ScaledIndexObj

/-- A coordinate-space key handed to `ScaledIndex.to_indexer`: a scalar
coordinate or a coordinate slice. -/
inductive CoordKey where
  | scalar (c : ℚ)
  | cslice (start stop : Option ℚ) (step : Option ℚ)
deriving DecidableEq, Repr

/-- The positional indexer produced by `ScaledIndex.to_indexer`. -/
inductive Indexer where
  | pos (i : ℤ)
  | pslice (start stop : Option ℤ) (step : Option ℚ)
deriving DecidableEq, Repr

namespace ScaledIndexObj

/-- Model of `ScaledIndex.to_indexer`: a scalar coordinate maps to
`round((c - start) / step)`; a slice maps its bounds via ceil / truncation and
only accepts step `None`, `1` or `-1`. -/
def to_indexer (si : ScaledIndexObj) (k : CoordKey) : Except PyErr Indexer :=
  match k with
  | .cslice a b st =>
    if st == none || st == some 1 || st == some (-1) then
      .ok (.pslice (a.map fun v => ⌈(v - si.start) / si.step⌉)
        (b.map fun v => ratTrunc ((v - si.start) / si.step)) st)
    else .error .valueError
  | .scalar c => .ok (.pos (roundHalfEven ((c - si.start) / si.step)))

end ScaledIndexObj

/-- Model of `CategoricalIndex`: an ordered label sequence with an optional scale
(`None` models the `_NO_SCALE` sentinel) and an optional unit. -/
structure CategoricalIndexObj where
  labels : List ℚ
  scale : Option ℚ
  unit : Option String
deriving DecidableEq, Repr

/-- Model of `ScaledIndex.subset`: builds `CategoricalIndex([start + key * step ...])`,
passing neither scale nor unit. -/
def ScaledIndexObj.subset (si : ScaledIndexObj) (ps : List ℤ) : CategoricalIndexObj :=
  ⟨ps.map (fun key => si.start + key * si.step), none, none⟩

namespace CategoricalIndexObj

/-- Model of `CategoricalIndex.has_duplicate`: the label tuple is longer than the
label-to-first-position map built at construction. -/
def has_duplicate (c : CategoricalIndexObj) : Bool :=
  c.labels.length ≠ c.labels.dedup.length

/-- The `_hash_map` lookup: position of the first occurrence of a label. -/
def firstIdx (c : CategoricalIndexObj) (x : ℚ) : Option ℕ :=
  c.labels.findIdx? (fun l => l == x)

end CategoricalIndexObj

/-- A coordinate-space key for `CategoricalIndex.to_indexer`: a scalar label
or a label slice (whose step is passed through untouched). -/
inductive CatKey where
  | scalar (x : ℚ)
  | cslice (start stop : Option ℚ) (step : Option ℤ)
deriving DecidableEq, Repr

/-- The positional indexer produced by `CategoricalIndex.to_indexer`. -/
inductive CatIndexer where
  | cpos (i : ℕ)
  | cpslice (start stop : Option ℕ) (step : Option ℤ)
deriving DecidableEq, Repr

namespace CategoricalIndexObj

/-- Look one optional slice bound up in the hash map (`KeyError` if absent). -/
def lookupBound (c : CategoricalIndexObj) (b : Option ℚ) : Except PyErr (Option ℕ) :=
  match b with
  | none => .ok none
  | some x =>
    match c.firstIdx x with
    | some i => .ok (some i)
    | none => .error .keyError

/-- Model of `CategoricalIndex.to_indexer`: raises `ValueError` whenever the labels
have a duplicate (for both slice and scalar keys); otherwise scalars and
slice bounds are looked up by label (`KeyError` if absent). -/
def to_indexer (c : CategoricalIndexObj) (k : CatKey) : Except PyErr CatIndexer :=
  if c.has_duplicate then .error .valueError
  else
    match k with
    | .cslice a b st => do
      let s ← c.lookupBound a
      let t ← c.lookupBound b
      .ok (.cpslice s t st)
    | .scalar x =>
      match c.firstIdx x with
      | some i => .ok (.cpos i)
      | none => .error .keyError

/-- Length of the position list selected by a normalized slice. -/
def sliceLen (start stop step : ℤ) : ℕ :=
  if step > 0 then (max ((stop - start + step - 1).fdiv step) 0).toNat
  else (max ((stop - start + step + 1).fdiv step) 0).toNat

/-- Model of `CategoricalIndex.__getitem__` on a slice: Python tuple slicing of the
labels, wrapped in a fresh `CategoricalIndex` with default scale and unit. -/
def getitem_slice (c : CategoricalIndexObj) (key : PySlice) :
    Except PyErr CategoricalIndexObj := do
  let (start, stop, step) ← sliceIndices key c.labels.length
  let n := sliceLen start stop step
  .ok ⟨(List.range n).map (fun k => c.labels.getD (start + k * step).toNat 0), none, none⟩

/-- Model of `CategoricalIndex.subset`: gather labels at the given positions (Python
indexing, so negative positions wrap and out-of-range raises `IndexError`);
unit is kept, scale is dropped. -/
def subset (c : CategoricalIndexObj) (ps : List ℤ) : Except PyErr CategoricalIndexObj := do
  let n : ℤ := c.labels.length
  let picked ← ps.mapM (fun i =>
    let j := if i < 0 then i + n else i
    if 0 ≤ j ∧ j < n then .ok (c.labels.getD j.toNat 0)
    else .error .indexError)
  .ok ⟨picked, none, c.unit⟩

end CategoricalIndexObj

/-- An axis's bound index: scaled or categorical. -/
inductive IndexObj where
  | scaled (si : ScaledIndexObj)
  | cat (c : CategoricalIndexObj)
deriving DecidableEq, Repr

namespace IndexObj

/-- Model of `index[python_slice]`, dispatching on the variant. -/
def getitem_slice : IndexObj → PySlice → Except PyErr IndexObj
  | .scaled si, s => (si.getitem_slice s).map .scaled
  | .cat c, s => (c.getitem_slice s).map .cat

/-- Model of `index.subset(positions)`, dispatching on the variant. -/
def subset : IndexObj → List ℤ → Except PyErr IndexObj
  | .scaled si, ps => .ok (.cat (si.subset ps))
  | .cat c, ps => (c.subset ps).map .cat

end IndexObj

/-- An axis object: a name bound to an optional `Index`.  `isUndef` marks
`UndefAxis` instances (whose name is always `"#"` and whose index is `None`).
`oid` models Python object identity; freshly created objects inside the
modelled algorithms carry `none` (distinct from every other object). -/
structure AxisObj where
  name : String
  isUndef : Bool
  oid : Option ℕ
  index : Option IndexObj
deriving DecidableEq, Repr

/-- Python `a is b` for two axis objects (true only for the same object). -/
def pyIs (a b : AxisObj) : Bool :=
  decide (a.oid.isSome = true ∧ a.oid = b.oid)

/-- Python `a == b` for two axis objects.  `_AxisBase.__eq__` compares names
as strings, but `UndefAxis.__eq__` returns `True` only against the plain
string `"#"`, so an `UndefAxis` operand makes the comparison `False`. -/
def pyEq (a b : AxisObj) : Bool :=
  decide (a.isUndef = false ∧ b.isUndef = false ∧ a.name = b.name)

/-- Python `axis == some_string`: name comparison for a regular axis,
`s == "#"` for an `UndefAxis`. -/
def pyEqStr (a : AxisObj) (s : String) : Bool :=
  if a.isUndef then decide (s = "#") else decide (a.name = s)

/-- The value hashed for an axis: `hash(str(self))` for a regular `Axis`,
`id(self)` for an `UndefAxis`. -/
inductive PyHashVal where
  | byName (s : String)
  | byId (o : Option ℕ)
deriving DecidableEq, Repr

/-- Model of `Axis.__hash__` / `UndefAxis.__hash__`. -/
def pyHash (a : AxisObj) : PyHashVal :=
  if a.isUndef then .byId a.oid else .byName a.name

/-- Model of `a is b or a == b`: the comparison CPython performs for list and set
membership (`PyObject_RichCompareBool` shortcuts on identity). -/
def dupRel (a b : AxisObj) : Bool :=
  pyIs a b || pyEq a b

/-- Membership of an axis in a list of axes under Python `in`. -/
def pyMem (a : AxisObj) (l : List AxisObj) : Bool :=
  l.any (fun b => dupRel a b)

/-- One insertion step of building `set(value)`. -/
def setStep (acc : List AxisObj) (a : AxisObj) : List AxisObj :=
  if pyMem a acc then acc else acc ++ [a]

/-- Model of `set(value)` as an insertion fold, keeping first representatives. -/
def setFold (l : List AxisObj) : List AxisObj :=
  l.foldl setStep []

/-- Model of `Coordinates.__init__` on a materialized list: raise `CoordinateError`
when `len(value) > len(set(value))`, else store the list. -/
def coordinatesInitList (l : List AxisObj) : Except PyErr (List AxisObj) :=
  if (setFold l).length < l.length then .error .coordinateError else .ok l

/-- Model of `Coordinates.__init__` when handed a generator (as `Coordinates.drop`
does): `len(value)` on a generator raises `TypeError` before anything else. -/
def coordinatesInitGen (_l : List AxisObj) : Except PyErr (List AxisObj) :=
  .error .typeError

/-- Model of `Coordinates.drop` with a list of axis names: build `drop_list`, then pass
the filtering generator expression to `Coordinates.__init__`, which calls
`len()` on it. -/
def coordinatesDrop (c : List AxisObj) (names : List String) : Except PyErr (List AxisObj) :=
  let dropList := names
  coordinatesInitGen (c.filter (fun a => ! dropList.any (fun s => pyEqStr a s)))

/-- Model of `Coordinates.find(axis, -1)` as used by `_broadcast_two`: position of the
first list element that is identical or equal to `a`, else `-1`. -/
def coordinatesFind (l : List AxisObj) (a : AxisObj) : ℤ :=
  match l.findIdx? (fun b => dupRel a b) with
  | some i => i
  | none => -1

/-- Python `list.insert(i, x)` for a non-negative position (appends when the
position is past the end). -/
def insertAt : List AxisObj → ℕ → AxisObj → List AxisObj
  | [], _, x => [x]
  | l, 0, x => x :: l
  | h :: t, n + 1, x => h :: insertAt t n x

/-- The first loop of `_broadcast_two`: reject `UndefAxis` members of
`coords1` with `TypeError` and collect `coords0.find(a, -1)` for each axis. -/
def checkArgIdx (c0 : List AxisObj) : List AxisObj → Except PyErr (List ℤ)
  | [] => .ok []
  | a :: t =>
    if a.isUndef then .error .typeError
    else do
      let r ← checkArgIdx c0 t
      .ok (coordinatesFind c0 a :: r)

/-- Flush the pending stack of not-found `coords1` positions into `out` at
`idx + n_insert`, bumping `n_insert` once per insertion. -/
def flushStack (c1 : List AxisObj) (idx : ℕ) (stack : List ℕ)
    (out : List AxisObj) (nIns : ℕ) : List AxisObj × ℕ :=
  stack.foldl
    (fun p j => (insertAt p.1 (idx + p.2) (c1.getD j ⟨"", false, none, none⟩), p.2 + 1))
    (out, nIns)

/-- The second loop of `_broadcast_two`: walk `enumerate(arg_idx)`, stacking
not-found positions and inserting each stacked run before the next found
axis's position; leftovers are appended at the end. -/
def bcastLoop (c1 : List AxisObj) : List (ℕ × ℤ) → List AxisObj → List ℕ → ℕ → List AxisObj
  | [], out, stack, _ => out ++ stack.map (fun j => c1.getD j ⟨"", false, none, none⟩)
  | (i, idx) :: rest, out, stack, nIns =>
    if idx < 0 then bcastLoop c1 rest out (stack ++ [i]) nIns
    else
      let p := flushStack c1 idx.toNat stack out nIns
      bcastLoop c1 rest p.1 [] p.2

/-- The body of `_broadcast_two` after both arguments have been coerced:
the `UndefAxis` check plus `arg_idx`, the insertion loops, and the final
`Coordinates(out)` construction. -/
def broadcastTwoBody (c0 c1 : List AxisObj) : Except PyErr (List AxisObj) := do
  let argIdx ← checkArgIdx c0 c1
  coordinatesInitList (bcastLoop c1 argIdx.enum c0 [] 0)

/-- The call `as_coordinates(coords0)` at the top of `_broadcast_two`.
`as_coordinates` is declared as `as_coordinates(coords, shape)` with no
default for `shape`, so calling it with one argument raises `TypeError`
(missing required positional argument) for every input. -/
def as_coordinates_one_arg (_c : List AxisObj) : Except PyErr (List AxisObj) :=
  .error .typeError

/-- Model of `_broadcast_two(coords0, coords1)` as written in the source: coerce both
arguments through the one-argument `as_coordinates` call, then run the body. -/
def broadcast_two (c0 c1 : List AxisObj) : Except PyErr (List AxisObj) := do
  let a0 ← as_coordinates_one_arg c0
  let a1 ← as_coordinates_one_arg c1
  broadcastTwoBody a0 a1

/-- One component of a tuple indexing key: integer, slice, list (fancy),
`None` (new axis), ellipsis, or an ndarray of a given rank. -/
inductive KeyElem where
  | intK (i : ℤ)
  | slcK (s : PySlice)
  | lstK (xs : List ℤ)
  | noneK
  | ellK
  | arrK (ndim : ℕ)
deriving DecidableEq, Repr

/-- A full indexing key as dispatched by `slice_axes`. -/
inductive PyKey where
  | tupK (ks : List KeyElem)
  | arrayK (ndim : ℕ)
  | noneKey
  | ellKey
  | elemK (k : KeyElem)
deriving DecidableEq, Repr

/-- The axis produced by `Axis.slice_axis`: `self.__class__(name, index=...)`.
For `UndefAxis` the constructor ignores its arguments and yields a fresh
undefined axis; either way the result is a new object. -/
def mkSlicedAxis (a : AxisObj) (ni : IndexObj) : AxisObj :=
  if a.isUndef then ⟨"#", true, none, none⟩ else ⟨a.name, false, none, some ni⟩

/-- Model of `Axis.slice_axis`: no-op (returning the same object) for keys that are
neither a slice nor a list; otherwise reindex through the bound index.  An
axis whose index is `None` (every `UndefAxis`) raises `TypeError` when the
source subscripts `self.index`. -/
def slice_axis (a : AxisObj) (sl : KeyElem) : Except PyErr AxisObj :=
  match sl with
  | .slcK s =>
    match a.index with
    | none => .error .typeError
    | some ix => do
      let ni ← ix.getitem_slice s
      .ok (mkSlicedAxis a ni)
  | .lstK xs =>
    match a.index with
    | none => .error .typeError
    | some ix => do
      let ni ← ix.subset xs
      .ok (mkSlicedAxis a ni)
  | _ => .ok a

/-- The lockstep walk of `slice_axes` over the expanded key components:
`None` inserts a placeholder without consuming an axis; integers (and stray
ellipses) consume and drop an axis; slices and arrays consume and keep a
(re-sliced) axis; lists additionally record the consumed axis as a fancy
candidate.  Consuming past the end of the axes iterator raises. -/
def walkKeys : List KeyElem → List AxisObj → Except PyErr (List (Option AxisObj) × List AxisObj)
  | [], _ => .ok ([], [])
  | .noneK :: ks, axs => do
    let (nl, li) ← walkKeys ks axs
    .ok (none :: nl, li)
  | _ :: _, [] => .error .stopIteration
  | .intK _ :: ks, _ :: axs => walkKeys ks axs
  | .ellK :: ks, _ :: axs => walkKeys ks axs
  | .slcK s :: ks, a :: axs => do
    let a2 ← slice_axis a (.slcK s)
    let (nl, li) ← walkKeys ks axs
    .ok (some a2 :: nl, li)
  | .arrK n :: ks, a :: axs => do
    let a2 ← slice_axis a (.arrK n)
    let (nl, li) ← walkKeys ks axs
    .ok (some a2 :: nl, li)
  | .lstK xs :: ks, a :: axs => do
    let a2 ← slice_axis a (.lstK xs)
    let (nl, li) ← walkKeys ks axs
    .ok (some a2 :: nl, a :: li)

/-- Python `entry == axis` for entries of the walked list (`None` placeholders
are equal to no axis), with the identity shortcut. -/
def entryEqAxis (e : Option AxisObj) (b : AxisObj) : Bool :=
  match e with
  | none => false
  | some a => dupRel a b

/-- The collapse pass run when more than one fancy axis was used: keep
entries not equal to any fancy candidate, replace the first hit with a single
`None` placeholder, and drop the remaining hits. -/
def collapseFancy : List (Option AxisObj) → List AxisObj → Bool → List (Option AxisObj)
  | [], _, _ => []
  | e :: rest, li, added =>
    if ! li.any (fun b => entryEqAxis e b) then e :: collapseFancy rest li added
    else if ! added then none :: collapseFancy rest li true
    else collapseFancy rest li added

/-- Python `x is y or x == y` over entries that may be `None` placeholders
(`None is None` is true). -/
def entryDupRel (a b : Option AxisObj) : Bool :=
  match a, b with
  | none, none => true
  | some x, some y => dupRel x y
  | _, _ => false

/-- Model of `set(...)` insertion fold over walked-list entries. -/
def setFoldEntries (l : List (Option AxisObj)) : List (Option AxisObj) :=
  l.foldl (fun acc a => if acc.any (fun b => entryDupRel a b) then acc else acc ++ [a]) []

/-- Model of `Coordinates.__init__` on a materialized list that may contain `None`
placeholders. -/
def coordinatesInitEntries (l : List (Option AxisObj)) :
    Except PyErr (List (Option AxisObj)) :=
  if (setFoldEntries l).length < l.length then .error .coordinateError else .ok l

/-- An all-`slice(None)` key component. -/
def slcAll : KeyElem := .slcK ⟨none, none, none⟩

/-- The tail of `slice_axes` shared by the tuple and bare-component cases:
walk the keys, collapse when more than one fancy axis was used, and build the
resulting `Coordinates`. -/
def sliceAxesWalk (coords : List AxisObj) (keys : List KeyElem) :
    Except PyErr (List (Option AxisObj)) := do
  let (nl, li) ← walkKeys keys coords
  let nl2 := if li.length > 1 then collapseFancy nl li false else nl
  coordinatesInitEntries nl2

/-- Key expansion for a tuple key: `ndim` grows by one per `None` component;
an ellipsis expands to `rest + 1` all-slices, otherwise the key is right
padded with all-slices. -/
def expandTupleKey (coords : List AxisObj) (ks : List KeyElem) : List KeyElem :=
  let ndim := coords.length + ks.countP (fun k => k == KeyElem.noneK)
  let restZ : ℤ := (ndim : ℤ) - ks.length
  match ks.findIdx? (fun k => k == KeyElem.ellK) with
  | some i => ks.take i ++ List.replicate (restZ + 1).toNat slcAll ++ ks.drop (i + 1)
  | none => ks ++ List.replicate restZ.toNat slcAll

/-- Model of `slice_axes(coords, key)` from `_axes_ops.py`: derive the new coordinate
list for an arbitrary indexing key. -/
def slice_axes (coords : List AxisObj) : PyKey → Except PyErr (List (Option AxisObj))
  | .tupK ks => sliceAxesWalk coords (expandTupleKey coords ks)
  | .arrayK n =>
    if n = 1 then .ok (coords.map some)
    else coordinatesInitEntries (none :: (coords.drop n).map some)
  | .noneKey => coordinatesInitEntries (none :: coords.map some)
  | .ellKey => .ok (coords.map some)
  | .elemK k => sliceAxesWalk coords (k :: List.replicate (coords.length - 1) slcAll)

/-- Elementwise Python `==` between a walked coordinate list and a list of
plain strings, as `Coordinates.__eq__` performs against `["#", "z", "x"]`
(a `None` placeholder equals no string). -/
def coordsEqStrList (l : List (Option AxisObj)) (s : List String) : Bool :=
  l.length == s.length &&
    (l.zip s).all (fun p =>
      match p.1 with
      | none => false
      | some a => pyEqStr a p.2)

/-- Does the list contain two positions holding equal (`__eq__`-equal, i.e.
both defined with the same name) axes? -/
def hasDefDup : List AxisObj → Bool
  | [] => false
  | a :: t => t.any (fun b => pyEq a b) || hasDefDup t

/-- One `set` insertion grows the accumulator by at most one element. -/
theorem setStep_length_le (acc : List AxisObj) (a : AxisObj) :
    (setStep acc a).length ≤ acc.length + 1 := by
  unfold setStep
  split
  · omega
  · simp

/-- The `set` fold grows the accumulator by at most the list length. -/
theorem foldl_setStep_length_le (l : List AxisObj) :
    ∀ acc : List AxisObj, (l.foldl setStep acc).length ≤ acc.length + l.length := by
  induction l with
  | nil => intro acc; simp
  | cons a t ih =>
    intro acc
    have h1 := setStep_length_le acc a
    have h2 := ih (setStep acc a)
    simp only [List.foldl_cons, List.length_cons]
    omega

/-- Membership against an accumulator extended by one element. -/
theorem pyMem_append_one (b x : AxisObj) (acc : List AxisObj) :
    pyMem b (acc ++ [x]) = (pyMem b acc || dupRel b x) := by
  simp [pyMem, List.any_append]

/-- Python identity is symmetric. -/
theorem pyIs_symm (a b : AxisObj) : pyIs a b = pyIs b a := by
  simp only [pyIs, decide_eq_decide]
  constructor
  · rintro ⟨h1, h2⟩; exact ⟨by rw [← h2]; exact h1, h2.symm⟩
  · rintro ⟨h1, h2⟩; exact ⟨by rw [← h2]; exact h1, h2.symm⟩

/-- Axis equality is symmetric. -/
theorem pyEq_symm (a b : AxisObj) : pyEq a b = pyEq b a := by
  simp only [pyEq, decide_eq_decide]
  constructor <;> rintro ⟨h1, h2, h3⟩ <;> exact ⟨h2, h1, h3.symm⟩

/-- The identity-or-equality relation is symmetric. -/
theorem dupRel_symm (a b : AxisObj) : dupRel a b = dupRel b a := by
  unfold dupRel
  rw [pyIs_symm, pyEq_symm]

/-- If some element of the remaining list is already present in the
accumulator, the fold result is strictly shorter than adding everything. -/
theorem foldl_setStep_drop (t : List AxisObj) :
    ∀ acc : List AxisObj, (∃ b ∈ t, pyMem b acc = true) →
      (t.foldl setStep acc).length < acc.length + t.length := by
  induction t with
  | nil => intro acc h; simp at h
  | cons y ys ih =>
    intro acc h
    obtain ⟨b, hb, hbm⟩ := h
    simp only [List.foldl_cons, List.length_cons]
    by_cases hy : pyMem y acc = true
    · have hstep : setStep acc y = acc := by unfold setStep; rw [if_pos hy]
      rw [hstep]
      have := foldl_setStep_length_le ys acc
      omega
    · have hstep : setStep acc y = acc ++ [y] := by unfold setStep; rw [if_neg hy]
      rw [hstep]
      rcases List.mem_cons.mp hb with hbeq | hbys
      · subst hbeq
        exact absurd hbm hy
      · have hbm2 : pyMem b (acc ++ [y]) = true := by
          rw [pyMem_append_one, hbm]
          rfl
        have := ih (acc ++ [y]) ⟨b, hbys, hbm2⟩
        simp only [List.length_append, List.length_singleton] at this
        omega

/-- A violated pairwise-distinctness forces the `set` to be strictly smaller
than the list. -/
theorem foldl_setStep_notPairwise (t : List AxisObj) :
    ∀ acc : List AxisObj, ¬ t.Pairwise (fun a b => dupRel a b = false) →
      (t.foldl setStep acc).length < acc.length + t.length := by
  induction t with
  | nil => intro acc h; exact absurd List.Pairwise.nil h
  | cons y ys ih =>
    intro acc h
    simp only [List.foldl_cons, List.length_cons]
    rw [List.pairwise_cons] at h
    rcases not_and_or.mp h with h1 | h2
    · push_neg at h1
      obtain ⟨b, hb, hbne⟩ := h1
      have hbd : dupRel y b = true := by revert hbne; cases dupRel y b <;> simp
      by_cases hy : pyMem y acc = true
      · have hstep : setStep acc y = acc := by unfold setStep; rw [if_pos hy]
        rw [hstep]
        have := foldl_setStep_length_le ys acc
        omega
      · have hstep : setStep acc y = acc ++ [y] := by unfold setStep; rw [if_neg hy]
        rw [hstep]
        have hbm : pyMem b (acc ++ [y]) = true := by
          rw [pyMem_append_one]
          have : dupRel b y = true := by rw [dupRel_symm]; exact hbd
          rw [this]
          simp
        have := foldl_setStep_drop ys (acc ++ [y]) ⟨b, hb, hbm⟩
        simp only [List.length_append, List.length_singleton] at this
        omega
    · have := ih (setStep acc y) h2
      have hl := setStep_length_le acc y
      omega

/-- With pairwise-distinct input not yet present in the accumulator, the
`set` fold keeps everything. -/
theorem foldl_setStep_pairwise (t : List AxisObj) :
    ∀ acc : List AxisObj, t.Pairwise (fun a b => dupRel a b = false) →
      (∀ a ∈ t, pyMem a acc = false) → t.foldl setStep acc = acc ++ t := by
  induction t with
  | nil => intro acc _ _; simp
  | cons y ys ih =>
    intro acc hp hm
    rw [List.pairwise_cons] at hp
    obtain ⟨hy, hys⟩ := hp
    have hyf : pyMem y acc = false := hm y (List.mem_cons_self y ys)
    have hstep : setStep acc y = acc ++ [y] := by
      unfold setStep
      rw [if_neg (by rw [hyf]; simp)]
    simp only [List.foldl_cons]
    rw [hstep]
    have hm2 : ∀ a ∈ ys, pyMem a (acc ++ [y]) = false := by
      intro a ha
      rw [pyMem_append_one, hm a (List.mem_cons_of_mem y ha)]
      have : dupRel a y = false := by rw [dupRel_symm]; exact hy a ha
      rw [this]
      rfl
    rw [ih (acc ++ [y]) hys hm2]
    simp

/-- A defined-name duplicate violates pairwise set-distinctness. -/
theorem hasDefDup_imp_notPairwise (l : List AxisObj) :
    hasDefDup l = true → ¬ l.Pairwise (fun a b => dupRel a b = false) := by
  induction l with
  | nil => intro h; simp [hasDefDup] at h
  | cons a t ih =>
    intro h hp
    rw [List.pairwise_cons] at hp
    obtain ⟨h1, h2⟩ := hp
    unfold hasDefDup at h
    simp only [Bool.or_eq_true] at h
    rcases h with ha | ht
    · obtain ⟨b, hb, hbe⟩ := List.any_eq_true.mp ha
      have hd : dupRel a b = true := by unfold dupRel; rw [hbe]; simp
      rw [h1 b hb] at hd
      cases hd
    · exact ih ht h2

/-- Without defined-name duplicates the list is pairwise `__eq__`-distinct. -/
theorem notDefDup_pairwise (l : List AxisObj) :
    hasDefDup l = false → l.Pairwise (fun a b => pyEq a b = false) := by
  induction l with
  | nil => intro _; exact List.Pairwise.nil
  | cons a t ih =>
    intro h
    unfold hasDefDup at h
    have ha : (t.any fun b => pyEq a b) = false := by
      revert h; cases t.any fun b => pyEq a b <;> simp
    have ht : hasDefDup t = false := by
      revert h; cases hasDefDup t <;> simp
    rw [List.pairwise_cons]
    refine ⟨?_, ih ht⟩
    intro b hb
    by_contra hne
    have hbe : pyEq a b = true := by revert hne; cases pyEq a b <;> simp
    have : (t.any fun b => pyEq a b) = true := List.any_eq_true.mpr ⟨b, hb, hbe⟩
    rw [ha] at this
    cases this

/-- Combine pairwise identity-distinctness and equality-distinctness. -/
theorem pairwise_dupRel_of (l : List AxisObj)
    (h1 : l.Pairwise (fun a b => pyIs a b = false))
    (h2 : l.Pairwise (fun a b => pyEq a b = false)) :
    l.Pairwise (fun a b => dupRel a b = false) := by
  induction l with
  | nil => exact .nil
  | cons a t ih =>
    rw [List.pairwise_cons] at h1 h2 ⊢
    refine ⟨?_, ih h1.2 h2.2⟩
    intro b hb
    unfold dupRel
    rw [h1.1 b hb, h2.1 b hb]
    rfl

/-- Concrete axis `t` with a unit-step index of size 10. -/
def tAx : AxisObj := ⟨"t", false, some 1, some (.scaled ⟨0, 1, 10, none⟩)⟩

/-- Concrete axis `z` with a unit-step index of size 10. -/
def zAx : AxisObj := ⟨"z", false, some 2, some (.scaled ⟨0, 1, 10, none⟩)⟩

/-- Concrete axis `y` with a unit-step index of size 10. -/
def yAx : AxisObj := ⟨"y", false, some 3, some (.scaled ⟨0, 1, 10, none⟩)⟩

/-- Concrete axis `x` with a unit-step index of size 10. -/
def xAx : AxisObj := ⟨"x", false, some 4, some (.scaled ⟨0, 1, 10, none⟩)⟩

/-- A second, distinct `y` axis object (index-free). -/
def yAx2 : AxisObj := ⟨"y", false, some 21, none⟩

/-- A second, distinct `x` axis object (index-free). -/
def xAx2 : AxisObj := ⟨"x", false, some 22, none⟩

/-- A first `UndefAxis` instance. -/
def undefA : AxisObj := ⟨"#", true, some 41, none⟩

/-- A second, distinct `UndefAxis` instance. -/
def undefB : AxisObj := ⟨"#", true, some 42, none⟩

/-- A defined axis named `z`. -/
def zDupA : AxisObj := ⟨"z", false, some 51, none⟩

/-- Another, distinct defined axis also named `z`. -/
def zDupB : AxisObj := ⟨"z", false, some 52, none⟩

/-- The fresh `z` axis produced by slicing `zAx` with `slice(None)`. -/
def zSliced : AxisObj := ⟨"z", false, none, some (.scaled ⟨0, 1, 10, none⟩)⟩

/-- The fresh `x` axis produced by slicing `xAx` with `slice(None)`. -/
def xSliced : AxisObj := ⟨"x", false, none, some (.scaled ⟨0, 1, 10, none⟩)⟩

/-- Claim C1 (code_bug evaluation): on coords `[t, z, y, x]` with key
`([1, 3, 5], slice(None), [1, 2, 3])`, `slice_axes` collapses the two fancy
axes at the position of the first one and keeps `z` and `x`, but the inserted
placeholder is the Python value `None`, not an `UndefAxis`: the resulting
coordinate list does not compare equal to `["#", "z", "x"]`, contradicting
the claimed result `['#', z, x]` (and the repository's own test
`test_axes.test_slicing`). -/
theorem claim1_code_eval :
    slice_axes [tAx, zAx, yAx, xAx] (.tupK [.lstK [1, 3, 5], slcAll, .lstK [1, 2, 3]])
      = .ok [none, some zSliced, some xSliced]
    ∧ coordsEqStrList [none, some zSliced, some xSliced] ["#", "z", "x"] = false := by
  refine ⟨?_, rfl⟩
  norm_num [slice_axes, sliceAxesWalk, expandTupleKey, walkKeys, slice_axis, slcAll,
    tAx, zAx, yAx, xAx, zSliced, xSliced, IndexObj.getitem_slice, IndexObj.subset,
    ScaledIndexObj.getitem_slice, ScaledIndexObj.getitem_int, ScaledIndexObj.stopCoord,
    ScaledIndexObj.subset, sliceIndices, mkSlicedAxis, Bind.bind, Except.bind, Except.map,
    Int.toNat_ofNat, collapseFancy, entryEqAxis, dupRel, pyIs, pyEq,
    coordinatesInitEntries, setFoldEntries, entryDupRel, pyMem]
  decide

/-- Claim C2 (code_bug evaluation): `_broadcast_two` as written raises
`TypeError` on every input, because it calls the two-parameter
`as_coordinates` with a single argument; the broadcast body that follows the
broken call does produce the claimed results `['z','y','x']` and `['y','x']`
on the claim's two examples. -/
theorem claim2_code_eval :
    broadcast_two [zAx, yAx, xAx] [yAx2, xAx2] = .error .typeError
    ∧ broadcastTwoBody [zAx, yAx, xAx] [yAx2, xAx2] = .ok [zAx, yAx, xAx]
    ∧ broadcastTwoBody [yAx, xAx] [xAx2, yAx2] = .ok [yAx, xAx] := by
  exact ⟨rfl, rfl, rfl⟩

/-- Claim C9 (code_bug evaluation): `Coordinates.drop` raises `TypeError` on
every call (its generator argument reaches `len()` inside
`Coordinates.__init__`), and `broadcast` raises `TypeError` from the
one-argument `as_coordinates` call, so neither returns a new `Coordinates`
as claimed. -/
theorem claim9_code_eval :
    coordinatesDrop [tAx, zAx, yAx, xAx] ["t"] = .error .typeError
    ∧ broadcast_two [zAx] [yAx2] = .error .typeError := by
  exact ⟨rfl, rfl⟩

/-- Claim C3 (counterexample): on a `CategoricalIndex` with duplicate labels,
`to_indexer` on a scalar label raises `ValueError` instead of returning the
first occurrence position `0`. -/
theorem claim3_counterexample :
    CategoricalIndexObj.has_duplicate ⟨[1, 1], none, none⟩ = true
    ∧ CategoricalIndexObj.to_indexer ⟨[1, 1], none, none⟩ (.scalar 1)
        = .error .valueError := by
  exact ⟨rfl, rfl⟩

/-- Claim C3 (amended): with duplicate labels, `to_indexer` fails with
`ValueError` for every key, scalar or slice; on a duplicate-free index a
scalar lookup fails (`KeyError`) exactly when the label is absent, and
returns the label's position when present. -/
theorem claim3_amended (c : CategoricalIndexObj) (k : CatKey) (x : ℚ) (i : ℕ) :
    (c.has_duplicate = true → c.to_indexer k = .error .valueError)
    ∧ (c.has_duplicate = false → c.firstIdx x = none →
        c.to_indexer (.scalar x) = .error .keyError)
    ∧ (c.has_duplicate = false → c.firstIdx x = some i →
        c.to_indexer (.scalar x) = .ok (.cpos i)) := by
  refine ⟨?_, ?_, ?_⟩
  · intro h
    simp [CategoricalIndexObj.to_indexer, h]
  · intro h1 h2
    simp [CategoricalIndexObj.to_indexer, h1, h2]
  · intro h1 h2
    simp [CategoricalIndexObj.to_indexer, h1, h2]

/-- Claim C3 (witness): duplicate labels fail even for slice keys; and on the
duplicate-free index `[1, 2]`, looking up the absent label `5` fails while
looking up `2` returns position `1`. -/
theorem claim3_witness :
    CategoricalIndexObj.to_indexer ⟨[1, 1, 2], none, none⟩ (.cslice (some 1) none (some 1))
      = .error .valueError
    ∧ CategoricalIndexObj.to_indexer ⟨[1, 2], none, none⟩ (.scalar 5) = .error .keyError
    ∧ CategoricalIndexObj.to_indexer ⟨[1, 2], none, none⟩ (.scalar 2) = .ok (.cpos 1) := by
  refine ⟨?_, ?_, ?_⟩
  · exact (claim3_amended ⟨[1, 1, 2], none, none⟩ (.cslice (some 1) none (some 1)) 0 0).1 rfl
  · exact (claim3_amended ⟨[1, 2], none, none⟩ (.scalar 5) 5 0).2.1 rfl rfl
  · exact (claim3_amended ⟨[1, 2], none, none⟩ (.scalar 2) 2 1).2.2 rfl rfl

/-- Claim C4 (counterexample): for `ScaledIndex(0, 1, 10)` and the slice
`slice(10, 12)` (normalized bounds `(10, 10, 1)`), the claim predicts the
empty `ScaledIndex(start=10, step=1, size=0)`, but the code raises
`IndexError` while looking up the coordinate of position 10. -/
theorem claim4_counterexample :
    ScaledIndexObj.getitem_slice ⟨0, 1, 10, none⟩ ⟨some 10, some 12, none⟩
      = .error .indexError
    ∧ (Except.error PyErr.indexError
        ≠ (Except.ok ⟨10, 1, 0, none⟩ : Except PyErr ScaledIndexObj)) := by
  refine ⟨?_, by decide⟩
  norm_num [ScaledIndexObj.getitem_slice, ScaledIndexObj.getitem_int,
    ScaledIndexObj.stopCoord, sliceIndices, Bind.bind, Except.bind]

/-- Claim C4 (amended): whenever the scalar coordinate lookup of the leading
selected end (position `b_start` for positive slice step, `b_stop - 1`
otherwise) succeeds with value `v`, slicing returns the `ScaledIndex` with
start `v`, step `b_step * step` and size `max((b_stop - b_start) // b_step, 0)`. -/
theorem claim4_amended (si : ScaledIndexObj) (s : PySlice) (bs bt bp : ℤ) (v : ℚ)
    (h1 : sliceIndices s si.size = .ok (bs, bt, bp))
    (h2 : (if bp > 0 then si.getitem_int bs else si.getitem_int (bt - 1)) = .ok v) :
    si.getitem_slice s = .ok ⟨v, bp * si.step, (max ((bt - bs).fdiv bp) 0).toNat, si.unit⟩ := by
  unfold ScaledIndexObj.getitem_slice
  rw [h1]
  simp only [Bind.bind, Except.bind]
  by_cases hbp : bp > 0
  · rw [if_pos hbp] at h2
    rw [if_pos hbp, h2]
  · rw [if_neg hbp] at h2
    rw [if_neg hbp, h2]

/-- Claim C4 (witness): the claim's own example,
`ScaledIndex(0, 1, 10)[slice(2, 8, 2)] = ScaledIndex(2, 2, 3)`. -/
theorem claim4_witness :
    ScaledIndexObj.getitem_slice ⟨0, 1, 10, none⟩ ⟨some 2, some 8, some 2⟩
      = .ok ⟨2, 2, 3, none⟩ := by
  have h := claim4_amended ⟨0, 1, 10, none⟩ ⟨some 2, some 8, some 2⟩ 2 8 2 2 rfl
    (by norm_num [ScaledIndexObj.getitem_int, ScaledIndexObj.stopCoord])
  refine h.trans ?_
  have h3 : ((8 - 2 : ℤ).fdiv 2 ⊔ 0).toNat = 3 := by decide
  rw [h3]
  norm_num

/-- Claim C5: `ScaledIndex.to_indexer` maps a scalar coordinate to
`round((c - start) / step)`, maps a coordinate slice with step `None`, `1` or
`-1` to the positional slice with `ceil`-mapped start and truncated stop
(`None` bounds preserved), and raises `ValueError` for any other slice step. -/
theorem claim5_to_indexer (si : ScaledIndexObj) (c : ℚ) (a b : Option ℚ) (st : Option ℚ)
    (_hstep : si.step ≠ 0) :
    si.to_indexer (.scalar c) = .ok (.pos (roundHalfEven ((c - si.start) / si.step)))
    ∧ (st = none ∨ st = some 1 ∨ st = some (-1) →
      si.to_indexer (.cslice a b st)
        = .ok (.pslice (a.map fun v => ⌈(v - si.start) / si.step⌉)
            (b.map fun v => ratTrunc ((v - si.start) / si.step)) st))
    ∧ (¬(st = none ∨ st = some 1 ∨ st = some (-1)) →
      si.to_indexer (.cslice a b st) = .error .valueError) := by
  refine ⟨rfl, ?_, ?_⟩
  · intro h
    rcases h with h | h | h <;> subst h <;> simp [ScaledIndexObj.to_indexer]
  · intro h
    push_neg at h
    obtain ⟨h1, h2, h3⟩ := h
    have hb : (st == none || st == some 1 || st == some (-1)) = false := by
      simp only [Bool.or_eq_false_iff, beq_eq_false_iff_ne, ne_eq]
      exact ⟨⟨h1, h2⟩, h3⟩
    simp [ScaledIndexObj.to_indexer, hb]

/-- Claim C5 (witness): on `ScaledIndex(0, 1, 10)`, the scalar `7/2` rounds
half-to-even to position 4; the slice from `2` to `17/2` maps to the
positional slice `2:8` (ceil and truncation); and slice step `2` raises
`ValueError`. -/
theorem claim5_witness :
    ScaledIndexObj.to_indexer ⟨0, 1, 10, none⟩ (.scalar (7/2)) = .ok (.pos 4)
    ∧ ScaledIndexObj.to_indexer ⟨0, 1, 10, none⟩ (.cslice (some 2) (some (17/2)) none)
        = .ok (.pslice (some 2) (some 8) none)
    ∧ ScaledIndexObj.to_indexer ⟨0, 1, 10, none⟩ (.cslice (some 2) (some 8) (some 2))
        = .error .valueError := by
  have h1 := claim5_to_indexer ⟨0, 1, 10, none⟩ (7/2) (some 2) (some (17/2)) none
    (by norm_num)
  have h2 := claim5_to_indexer ⟨0, 1, 10, none⟩ 0 (some 2) (some 8) (some 2)
    (by norm_num)
  refine ⟨h1.1.trans ?_, (h1.2.1 (Or.inl rfl)).trans ?_, h2.2.2 ?_⟩
  · norm_num [roundHalfEven]
  · norm_num [ratTrunc]
  · rintro (h | h | h)
    · exact Option.noConfusion h
    · rw [Option.some_inj] at h
      norm_num at h
    · rw [Option.some_inj] at h
      norm_num at h

/-- Claim C6 (counterexample): two distinct `UndefAxis` instances have equal
names (both `"#"`) yet compare unequal, and their hashes (object identities)
differ, refuting name-based equality and hashing for `UndefAxis`. -/
theorem claim6_counterexample :
    undefA.name = undefB.name
    ∧ pyEq undefA undefB = false
    ∧ pyHash undefA ≠ pyHash undefB := ⟨rfl, rfl, by decide⟩

/-- Claim C6 (amended): for axes that are not `UndefAxis`, equality holds iff
the names are equal, and equal names give equal hashes; any comparison
involving an `UndefAxis` is `False` regardless of names. -/
theorem claim6_amended (a b : AxisObj) :
    (a.isUndef = false → b.isUndef = false →
      ((pyEq a b = true ↔ a.name = b.name) ∧ (a.name = b.name → pyHash a = pyHash b)))
    ∧ (a.isUndef = true ∨ b.isUndef = true → pyEq a b = false) := by
  constructor
  · intro ha hb
    constructor
    · simp [pyEq, ha, hb]
    · intro hn
      simp [pyHash, ha, hb, hn]
  · intro hor
    rcases hor with h | h <;> simp [pyEq, h]

/-- Claim C6 (witness): two distinct defined axes named `z` compare equal
exactly by name and hash alike. -/
theorem claim6_witness :
    (pyEq zDupA zDupB = true ↔ zDupA.name = zDupB.name)
    ∧ (zDupA.name = zDupB.name → pyHash zDupA = pyHash zDupB) :=
  (claim6_amended zDupA zDupB).1 rfl rfl

/-- Claim C7 (counterexample): a sequence of two `UndefAxis` instances has
two axes with the same name `"#"`, yet `Coordinates.__init__` accepts it
(this is exactly what `Coordinates.undef` builds), refuting the claim that
any same-name duplicate raises `CoordinateError`. -/
theorem claim7_counterexample :
    coordinatesInitList [undefA, undefB] = .ok [undefA, undefB]
    ∧ undefA.name = undefB.name := ⟨rfl, rfl⟩

/-- Claim C7 (amended): for a sequence of pairwise-distinct axis objects,
construction raises `CoordinateError` exactly when the sequence contains two
defined (non-`UndefAxis`) axes with the same name. -/
theorem claim7_amended (l : List AxisObj)
    (h : l.Pairwise (fun a b => pyIs a b = false)) :
    coordinatesInitList l = .error .coordinateError ↔ hasDefDup l = true := by
  have hcond : coordinatesInitList l = .error .coordinateError
      ↔ (setFold l).length < l.length := by
    unfold coordinatesInitList
    constructor
    · intro he
      by_contra hlt
      rw [if_neg hlt] at he
      cases he
    · intro hlt
      rw [if_pos hlt]
  rw [hcond]
  constructor
  · intro hlt
    by_contra hnd
    have hnd2 : hasDefDup l = false := by
      revert hnd
      cases hasDefDup l <;> simp
    have hp2 := notDefDup_pairwise l hnd2
    have hdp := pairwise_dupRel_of l h hp2
    have heq := foldl_setStep_pairwise l [] hdp (by intro a _; rfl)
    unfold setFold at hlt
    rw [heq] at hlt
    simp at hlt
  · intro hd
    have hlt := foldl_setStep_notPairwise l [] (hasDefDup_imp_notPairwise l hd)
    unfold setFold
    simpa using hlt

/-- Claim C7 (witness): two distinct defined axes both named `z` do raise
`CoordinateError` at construction. -/
theorem claim7_witness :
    coordinatesInitList [zDupA, zDupB] = .error .coordinateError := by
  have h := claim7_amended [zDupA, zDupB] (by decide)
  exact h.mpr rfl

/-- Claim C8 (counterexample): broadcasting a pair whose second coordinate
set contains an `UndefAxis` does fail, but with `TypeError`, not with the
claimed `CoordinateError` kind. -/
theorem claim8_counterexample :
    broadcast_two [yAx] [undefA] = .error .typeError
    ∧ broadcastTwoBody [yAx] [undefA] = .error .typeError
    ∧ PyErr.typeError ≠ PyErr.coordinateError := ⟨rfl, rfl, by decide⟩

/-- Claim C8 (amended): whenever `coords1` contains an `UndefAxis`,
`_broadcast_two` fails with `TypeError`: as written it already fails with the
`TypeError` from the one-argument `as_coordinates` call, and its body's
explicit `UndefAxis` check also raises `TypeError`. -/
theorem claim8_amended (c0 c1 : List AxisObj)
    (h : c1.any (fun a => a.isUndef) = true) :
    broadcast_two c0 c1 = .error .typeError
    ∧ broadcastTwoBody c0 c1 = .error .typeError := by
  have hc : checkArgIdx c0 c1 = .error .typeError := by
    induction c1 with
    | nil => simp at h
    | cons a t ih =>
      simp only [List.any_cons, Bool.or_eq_true] at h
      unfold checkArgIdx
      by_cases ha : a.isUndef = true
      · rw [if_pos ha]
      · have ht : t.any (fun a => a.isUndef) = true := by
          rcases h with h | h
          · exact absurd h ha
          · exact h
        rw [if_neg ha, ih ht]
        rfl
  exact ⟨rfl, by unfold broadcastTwoBody; rw [hc]; rfl⟩

/-- Claim C8 (witness): the amended claim at a concrete pair with an
`UndefAxis` in the second coordinate set. -/
theorem claim8_witness :
    broadcast_two [xAx] [undefB] = .error .typeError
    ∧ broadcastTwoBody [xAx] [undefB] = .error .typeError :=
  claim8_amended [xAx] [undefB] rfl

/-- Claim C10: `ScaledIndex.subset` returns a `CategoricalIndex` (never a
`ScaledIndex`) whose labels are the coordinates `start + p * step` of the
given positions in order, and whose unit is `None` regardless of the
original index's unit. -/
theorem claim10_subset (start step : ℚ) (size : ℕ) (unit : Option String) (ps : List ℤ) :
    IndexObj.subset (.scaled ⟨start, step, size, unit⟩) ps
      = .ok (.cat ⟨ps.map (fun k => start + k * step), none, none⟩) := rfl
